import Mathlib

/-!
# Verification of the RSI-Scrape report-export pipeline

A shallow embedding of `src/pull-rsi.js` (a Playwright-driven multi-tenant
CSV-export scraper) and proofs about its behaviour.

Modelling conventions, used throughout:

* Browser-side effects are modelled by oracles packaged in `PageOps` /
  `SessionBehavior`: `page.$(sel)` is `present sel`, `page.click(sel)` is
  `clickResult sel` (an `Except` since Playwright interactions can throw),
  `page.fill(sel, v)` is `fillResult sel v`, and the in-page
  `page.evaluate(fetch)` is `fetchText`.
* JavaScript truthiness on strings (`if (x)`, `x || y`): `undefined`/`null`
  and the empty string are falsy.  `jsGet?` normalises an `Option String`
  so that `some ""` becomes `none`.
* The filesystem is an association list from path to contents; a write
  prepends (later writes shadow earlier ones on lookup).
* `log(...)` prefixes an ISO timestamp; the model records the message text
  without the timestamp prefix, which no claim depends on.
* Dates are days since the Unix epoch (`Nat`); `toYMD` embeds
  `d.toISOString().slice(0,10)` via the standard civil-from-days
  calendar conversion.
-/

set_option autoImplicit false

namespace RsiScrape

/-- JS truthiness for an optional string: `undefined`, `null` and `""` are
falsy.  `jsGet? x = some s` exactly when the JS value is truthy. -/
def jsGet? : Option String → Option String
  | some "" => none
  | some s => some s
  | none => none

/-- Embedding of `cfg.exportButton || 'text=Export'` (JS `||` takes the
right operand on a falsy left operand). -/
def jsOr (x : Option String) (d : String) : String :=
  match jsGet? x with
  | some s => s
  | none => d

/-- `String.prototype.endsWith` / the CSS `[href$=...]` attribute test,
computed on the character lists (kernel-reducible, unlike the byte-level
`String.endsWith`). -/
def strEndsWith (s suffix : String) : Bool :=
  suffix.data.isSuffixOf s.data

/-- `String.prototype.startsWith`, computed on the character lists. -/
def strStartsWith (s pre : String) : Bool :=
  pre.data.isPrefixOf s.data

/-- `String.prototype.trim` (at ASCII whitespace), computed on the
character lists. -/
def strTrim (s : String) : String :=
  ⟨((s.data.dropWhile Char.isWhitespace).reverse.dropWhile
      Char.isWhitespace).reverse⟩

/-- Split a character list at every comma (`'a,b'.split(',')` semantics:
the empty list yields one empty field). -/
def splitCommaAux : List Char → List (List Char)
  | [] => [[]]
  | c :: cs =>
    match splitCommaAux cs with
    | [] => [[]]
    | h :: t => if c = ',' then [] :: h :: t else (c :: h) :: t

/-- `s.split(',')` as in JS: fields between commas, in order. -/
def strSplitComma (s : String) : List String :=
  (splitCommaAux s.data).map (fun l => ⟨l⟩)

/-- Civil (proleptic Gregorian, UTC) date from a count of days since
1970-01-01, per the standard days-to-civil algorithm: returns
`(year, month, day)`. -/
def civilFromDays (z0 : Nat) : Nat × Nat × Nat :=
  let z := z0 + 719468
  let era := z / 146097
  let doe := z % 146097
  let yoe := (doe - doe / 1460 + doe / 36524 - doe / 146096) / 365
  let y0 := yoe + era * 400
  let doy := doe - (365 * yoe + yoe / 4 - yoe / 100)
  let mp := (5 * doy + 2) / 153
  let d := doy - (153 * mp + 2) / 5 + 1
  let m := if mp < 10 then mp + 3 else mp - 9
  let y := if m ≤ 2 then y0 + 1 else y0
  (y, m, d)

/-- Left-pad a numeral to two digits. -/
def pad2 (n : Nat) : String :=
  if n < 10 then "0" ++ toString n else toString n

/-- Left-pad a numeral to four digits. -/
def pad4 (n : Nat) : String :=
  (if n < 10 then "000" else if n < 100 then "00" else if n < 1000 then "0" else "")
    ++ toString n

/-- Embedding of `toYMD = (d) => d.toISOString().slice(0,10)`: the
`YYYY-MM-DD` rendering of a day count since the epoch. -/
def toYMD (day : Nat) : String :=
  let c := civilFromDays day
  pad4 c.1 ++ "-" ++ pad2 c.2.1 ++ "-" ++ pad2 c.2.2

/-- One report descriptor from `tenants.json` (fields read by
`setLast12Months` / `exportCsv` / the report loop of `runTenant`). -/
structure ReportConfig where
  name : String
  path : String
  presetLast12Selector : Option String := none
  startInput : Option String := none
  endInput : Option String := none
  exportButton : Option String := none
  deriving DecidableEq

/-- One tenant record from `tenants.json`. -/
structure TenantConfig where
  id : String
  baseUrlEnv : String
  reports : List ReportConfig
  deriving DecidableEq

/-- A resolved username/password pair (`getCredsForTenant`). -/
structure Credentials where
  user : String
  pass : String
  deriving DecidableEq

/-- A UI interaction performed on a page, as recorded by a mock page. -/
inductive Action where
  | click (selector : String)
  | fill (selector : String) (value : String)
  deriving DecidableEq

/-- A captured browser download event (`page.waitForEvent('download')`). -/
structure Download where
  suggestedFilename : String
  bytes : String
  deriving DecidableEq

/-- The observable behaviour of one live page.

`downloadRace tgt` models the `Promise.all` race in `exportCsv` after
clicking `tgt`: `some dl` when the click succeeded and a download event was
captured within the 12 s bound, `none` when the wait timed out or the click
threw (both land in the same `catch`).  `anchors` lists the `href`
attributes of the page's anchor elements, so `page.$('a[href$=".csv"]')`
is the first entry ending in `".csv"`. -/
structure PageOps where
  present : String → Bool
  clickResult : String → Except String Unit
  fillResult : String → String → Except String Unit
  downloadRace : String → Option Download
  anchors : List String
  fetchText : String → String

/-- The filesystem: paths mapped to file contents, most recent write first. -/
def FS := List (String × String)

instance : DecidableEq FS := inferInstanceAs (DecidableEq (List (String × String)))

/-- `fs.writeFileSync` / `download.saveAs`: record contents at a path. -/
def fsWrite (fs : FS) (p c : String) : FS := (p, c) :: fs

/-- The best-effort `Apply` click at the end of `setLast12Months`
(`page.$('text=Apply')` then `applyBtn.click()` when found).  Every
function in this family returns the interactions attempted (in order,
appended to `acc`) and `some e` when an interaction threw, in which case
later sub-steps do not run — the source has no `try`/`catch` here. -/
def applyStep (page : PageOps) (acc : List Action) : List Action × Option String :=
  if page.present "text=Apply" then
    match page.clickResult "text=Apply" with
    | .ok _ => (acc ++ [Action.click "text=Apply"], none)
    | .error e => (acc ++ [Action.click "text=Apply"], some e)
  else (acc, none)

/-- The end-date fill of `setLast12Months` followed by the Apply click. -/
def endStep (page : PageOps) (cfg : ReportConfig) (today : Nat)
    (acc : List Action) : List Action × Option String :=
  match jsGet? cfg.endInput with
  | some es =>
    match page.fillResult es (toYMD today) with
    | .ok _ => applyStep page (acc ++ [Action.fill es (toYMD today)])
    | .error e => (acc ++ [Action.fill es (toYMD today)], some e)
  | none => applyStep page acc

/-- The manual date-entry branch of `setLast12Months`: fill the configured
start and end inputs with `toYMD(today - 364 days)` / `toYMD(today)`
(the JS computes `start` by `setDate(getDate() - 364)`), then the Apply
click.  `today` is the current day for `new Date()`. -/
def setLast12Fallback (page : PageOps) (cfg : ReportConfig) (today : Nat) :
    List Action × Option String :=
  match jsGet? cfg.startInput with
  | some ss =>
    match page.fillResult ss (toYMD (today - 364)) with
    | .ok _ => endStep page cfg today [Action.fill ss (toYMD (today - 364))]
    | .error e => ([Action.fill ss (toYMD (today - 364))], some e)
  | none => endStep page cfg today []

/-- Embedding of `setLast12Months(page, cfg)`: preset branch, then the
manual date-input fallback (`setLast12Fallback`). -/
def setLast12Months (page : PageOps) (cfg : ReportConfig) (today : Nat) :
    List Action × Option String :=
  match jsGet? cfg.presetLast12Selector with
  | some sel =>
    if page.present sel then
      match page.clickResult sel with
      | .ok _ => ([Action.click sel], none)
      | .error e => ([Action.click sel], some e)
    else setLast12Fallback page cfg today
  | none => setLast12Fallback page cfg today

/-- The message of the error thrown when every export fallback is
exhausted. -/
def exportCaptureMsg : String :=
  "Could not capture CSV download (neither event nor link). Update selectors for this report."

/-- The log line emitted when the primary download path fails. -/
def fallbackLogLine : String :=
  "Download event not captured, trying href fallback..."

/-- Embedding of `exportCsv(page, cfg, savePathBase)`.  Returns the result
(`.ok filePath` or `.error message`), the filesystem after the call, and
the log lines emitted. -/
def exportCsv (page : PageOps) (cfg : ReportConfig) (savePathBase : String)
    (fs : FS) : Except String String × FS × List String :=
  match page.downloadRace (jsOr cfg.exportButton "text=Export") with
  | some dl =>
    let suggested := dl.suggestedFilename
    let fp := savePathBase ++ "__" ++
      (if strEndsWith suggested ".csv" then suggested else suggested ++ ".csv")
    (.ok fp, fsWrite fs fp dl.bytes, [])
  | none =>
    match page.anchors.find? (fun h => strEndsWith h ".csv") with
    | some href =>
      let csv := page.fetchText href
      let fp := savePathBase ++ ".csv"
      (.ok fp, fsWrite fs fp csv, [fallbackLogLine])
    | none => (.error exportCaptureMsg, fs, [fallbackLogLine])

/-- The process environment: `process.env` as a partial map. -/
def Env := String → Option String

/-- The message of the error `getCredsForTenant` throws. -/
def missingCredsMsg (id : String) : String :=
  "Missing creds for tenant " ++ id ++ ". Add RSI_USER_" ++ id ++
    "/RSI_PASS_" ++ id ++ " to .env"

/-- Embedding of `getCredsForTenant(id)`: reads `RSI_USER_<id>` /
`RSI_PASS_<id>` and throws when either is missing or empty
(`!user || !pass`). -/
def getCredsForTenant (envv : Env) (id : String) : Except String Credentials :=
  match jsGet? (envv ("RSI_USER_" ++ id)), jsGet? (envv ("RSI_PASS_" ++ id)) with
  | some u, some p => .ok ⟨u, p⟩
  | _, _ => .error (missingCredsMsg id)

/-- The tenant-scoped output root, `path.join(ROOT, 'data')` relative to the
repository root. -/
def DATA_DIR : String := "data"

/-- The observable behaviour of one tenant's isolated browser context:
the outcome of `login(page, baseUrl, user, pass)` (any of its awaited steps
can throw), the outcome of `page.goto(url)` per URL, and the page state
reached after navigating to each URL. -/
structure SessionBehavior where
  loginResult : String → String → String → Except String Unit
  gotoResult : String → Except String Unit
  reportPage : String → PageOps

/-- `baseUrl.replace(/\/$/, '')`: drop a single trailing slash. -/
def stripTrailingSlash (s : String) : String :=
  if strEndsWith s "/" then s.dropRight 1 else s

/-- The URL a report is navigated to
(`r.path.startsWith('http') ? r.path : baseUrl.replace(/\/$/,'') + r.path`). -/
def reportUrl (baseUrl : String) (r : ReportConfig) : String :=
  if strStartsWith r.path "http" then r.path else stripTrailingSlash baseUrl ++ r.path

instance {ε α : Type} [DecidableEq ε] [DecidableEq α] : DecidableEq (Except ε α) :=
  fun a b =>
    match a, b with
    | .error e, .error f => decidable_of_iff (e = f) (by simp)
    | .ok x, .ok y => decidable_of_iff (x = y) (by simp)
    | .error _, .ok _ => isFalse Except.noConfusion
    | .ok _, .error _ => isFalse Except.noConfusion

/-- Everything observable about one `runTenant` call: its outcome, the
filesystem afterwards, the log lines, whether a browser context was opened,
whether `context.close()` was reached, and the file paths returned by
`exportCsv` (the values logged as `Saved -> ...`), in order. -/
structure TenantOutcome where
  result : Except String Unit
  fs : FS
  logs : List String
  opened : Bool
  closed : Bool
  saved : List String
  deriving DecidableEq

/-- The `for (const r of tenantCfg.reports)` loop body of `runTenant`:
navigate, configure the date range, export.  Returns the loop outcome, the
filesystem, the log lines, and the saved paths. -/
def runReports (sb : SessionBehavior) (tid baseUrl tDir stamp : String)
    (today : Nat) :
    List ReportConfig → FS → Except String Unit × FS × List String × List String
  | [], fs => (.ok (), fs, [], [])
  | r :: rs, fs =>
    let logs0 := ["[" ++ tid ++ "] Report: " ++ r.name]
    let url := reportUrl baseUrl r
    match sb.gotoResult url with
    | .error e => (.error e, fs, logs0, [])
    | .ok _ =>
      let page := sb.reportPage url
      match (setLast12Months page r today).2 with
      | some e => (.error e, fs, logs0, [])
      | none =>
        let base := tDir ++ "/" ++ (tid ++ "__" ++ r.name ++ "__" ++ stamp)
        match exportCsv page r base fs with
        | (.error e, fs1, elogs) => (.error e, fs1, logs0 ++ elogs, [])
        | (.ok fp, fs1, elogs) =>
          let rest := runReports sb tid baseUrl tDir stamp today rs fs1
          (rest.1, rest.2.1,
            logs0 ++ elogs ++ ["[" ++ tid ++ "] Saved -> " ++ fp] ++ rest.2.2.1,
            fp :: rest.2.2.2)

/-- Embedding of `runTenant(browser, tenantCfg, creds)`.  A context is
opened first (`browser.newContext`); the source reaches `context.close()`
only by falling off the end of the report loop — there is no
`try`/`finally`, so any throw leaves the context open.  `today` and
`stamp` stand for the clock readings (`new Date()`), `stamp` being the
sanitised run timestamp. -/
def runTenant (sb : SessionBehavior) (cfg : TenantConfig) (creds : Credentials)
    (envv : Env) (today : Nat) (stamp : String) (fs : FS) : TenantOutcome :=
  match jsGet? (envv cfg.baseUrlEnv) with
  | none =>
    { result := .error ("Base URL env " ++ cfg.baseUrlEnv ++ " not set"),
      fs := fs, logs := [], opened := true, closed := false, saved := [] }
  | some baseUrl =>
    let tDir := DATA_DIR ++ "/" ++ cfg.id
    let logs1 := ["[" ++ cfg.id ++ "] Logging in..."]
    match sb.loginResult baseUrl creds.user creds.pass with
    | .error e =>
      { result := .error e, fs := fs, logs := logs1,
        opened := true, closed := false, saved := [] }
    | .ok _ =>
      let logs2 := logs1 ++ ["[" ++ cfg.id ++ "] Logged in."]
      match runReports sb cfg.id baseUrl tDir stamp today cfg.reports fs with
      | (.error e, fs1, rlogs, saved) =>
        { result := .error e, fs := fs1, logs := logs2 ++ rlogs,
          opened := true, closed := false, saved := saved }
      | (.ok _, fs1, rlogs, saved) =>
        { result := .ok (), fs := fs1, logs := logs2 ++ rlogs,
          opened := true, closed := true, saved := saved }

/-- The body of `main`'s per-tenant `try` block:
`getCredsForTenant(cfg.id)` then `runTenant(browser, cfg, creds)`.  When
credential resolution throws, `runTenant` is never called, so no context is
opened and nothing is navigated for that tenant.  `sb` gives each tenant's
session behaviour by tenant id. -/
def tenantStep (sb : String → SessionBehavior) (envv : Env) (today : Nat)
    (stamp : String) (fs : FS) (cfg : TenantConfig) : TenantOutcome :=
  match getCredsForTenant envv cfg.id with
  | .error e =>
    { result := .error e, fs := fs, logs := [],
      opened := false, closed := false, saved := [] }
  | .ok creds => runTenant (sb cfg.id) cfg creds envv today stamp fs

/-- The error line `main` logs when a tenant's step throws. -/
def errorLine (tid msg : String) : String := "[" ++ tid ++ "] ERROR: " ++ msg

/-- Embedding of `main`'s `for (const cfg of runCfgs)` loop: each tenant's
step runs inside `try`/`catch`; an error is logged with the tenant id and
the loop moves on.  Returns the final filesystem, the log lines, and the
ids of the tenants whose loop iteration was entered, in order. -/
def mainLoop (sb : String → SessionBehavior) (envv : Env) (today : Nat)
    (stamp : String) : List TenantConfig → FS → FS × List String × List String
  | [], fs => (fs, [], [])
  | cfg :: rest, fs =>
    let o := tenantStep sb envv today stamp fs cfg
    let errLogs := match o.result with
      | .error e => [errorLine cfg.id e]
      | .ok _ => []
    let tail := mainLoop sb envv today stamp rest o.fs
    (tail.1, o.logs ++ errLogs ++ tail.2.1, cfg.id :: tail.2.2)

/-- Embedding of the `--tenant` lookup in `main`:
`tIdx = args.indexOf('--tenant')`, then `args[tIdx + 1]` when found
(`undefined`, i.e. `none`, when the flag is last) and `null` otherwise. -/
def singleTenantArg (args : List String) : Option String :=
  match args.findIdx? (· == "--tenant") with
  | none => none
  | some i => args.get? (i + 1)

/-- The tenant-id list obtained from the `TENANTS` environment variable:
`env('TENANTS','').split(',').map(s => s.trim()).filter(Boolean)`. -/
def tenantsFromEnv (envv : Env) : List String :=
  ((strSplitComma ((envv "TENANTS").getD "")).map strTrim).filter
    (fun s => s ≠ "")

/-- Embedding of `getTenantIds(cliTenant)`: a truthy CLI tenant wins,
otherwise split `TENANTS`. -/
def getTenantIds (cliTenant : Option String) (envv : Env) : List String :=
  match jsGet? cliTenant with
  | some t => [t]
  | none => tenantsFromEnv envv

/-- The tenant-id list `main` resolves from the command line and the
environment. -/
def resolveTenantIds (args : List String) (envv : Env) : List String :=
  getTenantIds (singleTenantArg args) envv

/-! ### Concrete fixtures

Small concrete pages, configurations and behaviours used to evaluate the
model at specific inputs (witnesses and counterexamples). -/

/-- A page where every interaction succeeds but no element is found, no
download is captured and no anchor exists. -/
def pageInert : PageOps :=
  { present := fun _ => false, clickResult := fun _ => .ok (),
    fillResult := fun _ _ => .ok (), downloadRace := fun _ => none,
    anchors := [], fetchText := fun _ => "" }

/-- A page with no download capture and no `.csv` anchor (only a PDF). -/
def pageNoCapture : PageOps :=
  { pageInert with anchors := ["report.pdf"] }

/-- A page where the download race fails but a `.csv` anchor exists. -/
def pageAnchor : PageOps :=
  { pageInert with
    anchors := ["export/data.csv"],
    fetchText := fun _ => "a,b\n1,2\n" }

/-- A page where the export click captures a download whose suggested name
lacks a `.csv` extension. -/
def pageDownload : PageOps :=
  { pageInert with downloadRace := fun _ => some ⟨"stats", "x,y\n"⟩ }

/-- A page where every element is present and every interaction succeeds. -/
def pageAllPresent : PageOps :=
  { pageInert with present := fun _ => true }

/-- A page where filling any input throws. -/
def pageFillFails : PageOps :=
  { pageInert with fillResult := fun _ _ => .error "fill timed out" }

/-- A report with no optional selectors configured. -/
def rptPlain : ReportConfig := { name := "rep", path := "/r" }

/-- A report with a preset date-range selector configured. -/
def rptPreset : ReportConfig :=
  { name := "rep", path := "/r", presetLast12Selector := some "#last12" }

/-- A report with manual start/end date inputs configured. -/
def rptManual : ReportConfig :=
  { name := "rep", path := "/r", startInput := some "#start",
    endInput := some "#end" }

def cfgA : TenantConfig := { id := "A", baseUrlEnv := "BASE_A", reports := [rptPlain] }

def cfgB : TenantConfig := { id := "B", baseUrlEnv := "BASE_B", reports := [rptPlain] }

/-- An environment with credentials and base URLs for tenants `A` and `B`. -/
def envAB : Env := fun k =>
  if k = "RSI_USER_A" then some "ua"
  else if k = "RSI_PASS_A" then some "pa"
  else if k = "RSI_USER_B" then some "ub"
  else if k = "RSI_PASS_B" then some "pb"
  else if k = "BASE_A" then some "https://a.example"
  else if k = "BASE_B" then some "https://b.example"
  else none

/-- `envAB` with tenant `A`'s username removed. -/
def envNoUserA : Env := fun k =>
  if k = "RSI_USER_A" then none else envAB k

/-- A session where login, navigation and export (via download event) all
succeed. -/
def sbGood : SessionBehavior :=
  { loginResult := fun _ _ _ => .ok (), gotoResult := fun _ => .ok (),
    reportPage := fun _ => pageDownload }

/-- A session whose login throws. -/
def sbLoginFail : SessionBehavior :=
  { sbGood with loginResult := fun _ _ _ => .error "login refused" }

/-- A session where the export download race fails but the page has a
`.csv` anchor. -/
def sbAnchor : SessionBehavior :=
  { sbGood with reportPage := fun _ => pageAnchor }

/-- Per-tenant behaviour where tenant `A` fails at login and every other
tenant succeeds. -/
def sbAFails : String → SessionBehavior := fun id =>
  if id = "A" then sbLoginFail else sbGood

/-- Per-tenant behaviour where every tenant succeeds. -/
def sbAllGood : String → SessionBehavior := fun _ => sbGood

/-- An environment whose only binding is a messy `TENANTS` list. -/
def envT : Env := fun k =>
  if k = "TENANTS" then some " a , b ,, c" else none

example : toYMD 0 = "1970-01-01" := by decide
example : toYMD 20000 = "2024-10-04" := by decide
example : toYMD 19636 = "2023-10-06" := by decide
example : toYMD 59 = "1970-03-01" := by decide
example : toYMD 11016 = "2000-02-29" := by decide

/-! ### Claims about the Export Acquirer (`exportCsv`) -/

/-- **C2.** `exportCsv` fails with the `ExportCaptureError` message if and
only if both acquisition paths are exhausted: the bounded download race
yielded nothing (timeout or failed export click) and no anchor on the page
has an href ending in `".csv"`; and in that failure case the filesystem is
unchanged (no output file is produced). -/
theorem exportCsv_error_iff_fallbacks_exhausted (page : PageOps)
    (cfg : ReportConfig) (base : String) (fs : FS) :
    ((exportCsv page cfg base fs).1 = .error exportCaptureMsg ↔
      page.downloadRace (jsOr cfg.exportButton "text=Export") = none ∧
        ∀ h ∈ page.anchors, strEndsWith h ".csv" = false) ∧
    ((exportCsv page cfg base fs).1 = .error exportCaptureMsg →
      (exportCsv page cfg base fs).2.1 = fs) := by
  rcases hdl : page.downloadRace (jsOr cfg.exportButton "text=Export") with _ | dl
  · rcases hf : page.anchors.find? (fun h => strEndsWith h ".csv") with _ | href
    · refine ⟨⟨fun _ => ⟨rfl, fun h hm => ?_⟩, fun _ => ?_⟩, fun _ => ?_⟩
      · simpa using List.find?_eq_none.mp hf h hm
      · simp [exportCsv, hdl, hf]
      · simp [exportCsv, hdl, hf]
    · have hcsv : strEndsWith href ".csv" = true := by
        have := List.find?_some hf; simpa using this
      have hmem : href ∈ page.anchors := List.mem_of_find?_eq_some hf
      refine ⟨⟨fun hE => ?_, fun hall => ?_⟩, fun hE => ?_⟩
      · exact absurd hE (by simp [exportCsv, hdl, hf])
      · have hc := hall.2 href hmem
        rw [hcsv] at hc
        exact Bool.noConfusion hc
      · exact absurd hE (by simp [exportCsv, hdl, hf])
  · refine ⟨⟨fun hE => ?_, fun hall => ?_⟩, fun hE => ?_⟩
    · exact absurd hE (by simp [exportCsv, hdl])
    · exact Option.noConfusion hall.1
    · exact absurd hE (by simp [exportCsv, hdl])

/-- Witness for `exportCsv_error_iff_fallbacks_exhausted` at a concrete
page with no download capture and only a non-CSV anchor. -/
theorem exportCsv_error_iff_fallbacks_exhausted_witness :
    (exportCsv pageNoCapture rptPlain "data/A/A__rep__S" []).1 =
      .error exportCaptureMsg ∧
    (exportCsv pageNoCapture rptPlain "data/A/A__rep__S" []).2.1 = [] := by
  have h := exportCsv_error_iff_fallbacks_exhausted pageNoCapture rptPlain
    "data/A/A__rep__S" []
  have hE := h.1.mpr ⟨rfl, by decide⟩
  exact ⟨hE, h.2 hE⟩

/-- **C3.** When the primary download path yields nothing (timeout or
failed click) but the page has an anchor whose href ends in `".csv"`,
`exportCsv` fetches that href in the page's own execution context, writes
the fetched text verbatim to `savePathBase ++ ".csv"`, and returns exactly
that path (logging the fallback line). -/
theorem exportCsv_anchor_fallback (page : PageOps) (cfg : ReportConfig)
    (base : String) (fs : FS) (href : String)
    (hdl : page.downloadRace (jsOr cfg.exportButton "text=Export") = none)
    (hfind : page.anchors.find? (fun h => strEndsWith h ".csv") = some href) :
    exportCsv page cfg base fs =
      (.ok (base ++ ".csv"), fsWrite fs (base ++ ".csv") (page.fetchText href),
        [fallbackLogLine]) := by
  simp [exportCsv, hdl, hfind]

/-- Witness for `exportCsv_anchor_fallback` at a concrete page with a
`.csv` anchor and no captured download. -/
theorem exportCsv_anchor_fallback_witness :
    exportCsv pageAnchor rptPlain "b" [] =
      (.ok ("b" ++ ".csv"),
        fsWrite [] ("b" ++ ".csv") (pageAnchor.fetchText "export/data.csv"),
        [fallbackLogLine]) :=
  exportCsv_anchor_fallback pageAnchor rptPlain "b" [] "export/data.csv"
    rfl (by decide)

/-! ### Claims about the Date-Range Configurator (`setLast12Months`) -/

/-- **C5.** When the preset selector is configured (truthy) and present on
the page, `setLast12Months` only clicks the preset control: the recorded
trace is exactly that click (so no start/end fill and no Apply click
occur), and when the click succeeds the function returns immediately with
no error. -/
theorem setLast12_preset_short_circuit (page : PageOps) (cfg : ReportConfig)
    (today : Nat) (sel : String)
    (hsel : jsGet? cfg.presetLast12Selector = some sel)
    (hpres : page.present sel = true) :
    (setLast12Months page cfg today).1 = [Action.click sel] ∧
    (∀ s v, Action.fill s v ∉ (setLast12Months page cfg today).1) ∧
    (page.clickResult sel = .ok () →
      setLast12Months page cfg today = ([Action.click sel], none)) := by
  rcases hc : page.clickResult sel with e | u
  · refine ⟨by simp [setLast12Months, hsel, hpres, hc], fun s v => ?_, fun hok => ?_⟩
    · simp [setLast12Months, hsel, hpres, hc]
    · exact Except.noConfusion hok
  · cases u
    refine ⟨by simp [setLast12Months, hsel, hpres, hc], fun s v => ?_, fun _ => ?_⟩
    · simp [setLast12Months, hsel, hpres, hc]
    · simp [setLast12Months, hsel, hpres, hc]

/-- Witness for `setLast12_preset_short_circuit` at a concrete page where
the preset element exists and its click succeeds. -/
theorem setLast12_preset_short_circuit_witness :
    (setLast12Months pageAllPresent rptPreset 20000).1 =
      [Action.click "#last12"] ∧
    Action.fill "#start" "2023-10-06" ∉
      (setLast12Months pageAllPresent rptPreset 20000).1 ∧
    setLast12Months pageAllPresent rptPreset 20000 =
      ([Action.click "#last12"], none) := by
  have h := setLast12_preset_short_circuit pageAllPresent rptPreset 20000
    "#last12" rfl rfl
  exact ⟨h.1, h.2.1 "#start" "2023-10-06", h.2.2 rfl⟩

/-- Trace membership for the Apply sub-step: it can only append the Apply
click to the actions already attempted. -/
lemma mem_applyStep_iff (page : PageOps) (acc : List Action) (a : Action) :
    a ∈ (applyStep page acc).1 ↔ a ∈ acc ∨
      (page.present "text=Apply" = true ∧ a = Action.click "text=Apply") := by
  by_cases hp : page.present "text=Apply" = true
  · cases hc : page.clickResult "text=Apply" <;> simp [applyStep, hp, hc]
  · simp [applyStep, hp]

/-- The end-date sub-step keeps every action already attempted. -/
lemma endStep_sub (page : PageOps) (cfg : ReportConfig) (today : Nat)
    (acc : List Action) (a : Action) (ha : a ∈ acc) :
    a ∈ (endStep page cfg today acc).1 := by
  cases he : jsGet? cfg.endInput with
  | none =>
    have h : a ∈ (applyStep page acc).1 :=
      (mem_applyStep_iff page acc a).mpr (Or.inl ha)
    simpa [endStep, he] using h
  | some es =>
    cases hf : page.fillResult es (toYMD today) with
    | error e => simp [endStep, he, hf]; exact Or.inl ha
    | ok u =>
      have : a ∈ (applyStep page (acc ++ [Action.fill es (toYMD today)])).1 :=
        (mem_applyStep_iff page _ a).mpr (Or.inl (List.mem_append_left _ ha))
      simpa [endStep, he, hf] using this

/-- When an end-date selector is configured, the end-date fill is always
attempted (whatever its outcome). -/
lemma endStep_end_mem (page : PageOps) (cfg : ReportConfig) (today : Nat)
    (acc : List Action) (es : String) (he : jsGet? cfg.endInput = some es) :
    Action.fill es (toYMD today) ∈ (endStep page cfg today acc).1 := by
  cases hf : page.fillResult es (toYMD today) with
  | error e => simp [endStep, he, hf]
  | ok u =>
    have : Action.fill es (toYMD today) ∈
        (applyStep page (acc ++ [Action.fill es (toYMD today)])).1 :=
      (mem_applyStep_iff page _ _).mpr
        (Or.inl (List.mem_append_right _ (List.mem_singleton.mpr rfl)))
    simpa [endStep, he, hf] using this

/-- Any fill in the end-step trace is either an already-attempted action or
the end-date fill itself. -/
lemma endStep_fill_inv (page : PageOps) (cfg : ReportConfig) (today : Nat)
    (acc : List Action) (s v : String)
    (hmem : Action.fill s v ∈ (endStep page cfg today acc).1) :
    Action.fill s v ∈ acc ∨
      (jsGet? cfg.endInput = some s ∧ v = toYMD today) := by
  cases he : jsGet? cfg.endInput with
  | none =>
    rw [show endStep page cfg today acc = applyStep page acc by
      simp [endStep, he]] at hmem
    rcases (mem_applyStep_iff page acc _).mp hmem with h | ⟨-, h⟩
    · exact Or.inl h
    · exact absurd h (by simp)
  | some es =>
    cases hf : page.fillResult es (toYMD today) with
    | error e =>
      simp only [endStep, he, hf] at hmem
      rcases List.mem_append.mp hmem with h | h
      · exact Or.inl h
      · have hh := List.mem_singleton.mp h
        injection hh with h1 h2
        exact Or.inr ⟨by rw [h1], h2⟩
    | ok u =>
      simp only [endStep, he, hf] at hmem
      rcases (mem_applyStep_iff page _ _).mp hmem with h | ⟨-, h⟩
      · rcases List.mem_append.mp h with h | h
        · exact Or.inl h
        · have hh := List.mem_singleton.mp h
          injection hh with h1 h2
          exact Or.inr ⟨by rw [h1], h2⟩
      · exact absurd h (by simp)

/-- **C6 counterexample.** The claim says `setTrailing12Months` never
throws; but on a page where `page.fill` throws, the embedded function
propagates the interaction error (the source has no `try`/`catch` around
these sub-steps). -/
theorem setLast12_throws_cex :
    (setLast12Months pageFillFails rptManual 20000).2 = some "fill timed out" := by
  decide

/-- **C6 (amended).** Each sub-step of `setTrailing12Months` is skipped
when its selector is missing or its element absent, and the function
returns without error whenever every click and fill interaction on the
page succeeds; however, a failing interaction's error propagates out of
the function (it is not swallowed). -/
theorem setLast12_ok_when_interactions_ok (page : PageOps)
    (cfg : ReportConfig) (today : Nat)
    (hclick : ∀ s, page.clickResult s = .ok ())
    (hfill : ∀ s v, page.fillResult s v = .ok ()) :
    (setLast12Months page cfg today).2 = none := by
  have happly : ∀ acc, (applyStep page acc).2 = none := by
    intro acc
    by_cases hp : page.present "text=Apply" = true
    · simp [applyStep, hp, hclick]
    · simp [applyStep, hp]
  have hend : ∀ acc, (endStep page cfg today acc).2 = none := by
    intro acc
    cases he : jsGet? cfg.endInput with
    | none => simp [endStep, he, happly]
    | some es => simp [endStep, he, hfill, happly]
  have hfb : (setLast12Fallback page cfg today).2 = none := by
    cases hs : jsGet? cfg.startInput with
    | none => simp [setLast12Fallback, hs, hend]
    | some ss => simp [setLast12Fallback, hs, hfill, hend]
  cases hp : jsGet? cfg.presetLast12Selector with
  | none => simp [setLast12Months, hp, hfb]
  | some sel =>
    by_cases hpr : page.present sel = true
    · simp [setLast12Months, hp, hpr, hclick]
    · simp [setLast12Months, hp, hpr, hfb]

/-- Witness for `setLast12_ok_when_interactions_ok` on a concrete page
where every interaction succeeds. -/
theorem setLast12_ok_when_interactions_ok_witness :
    (setLast12Months pageAllPresent rptManual 20000).2 = none :=
  setLast12_ok_when_interactions_ok pageAllPresent rptManual 20000
    (fun _ => rfl) (fun _ _ => rfl)

/-- **C7.** When the preset path is not taken (selector unconfigured or
element absent), `setLast12Months` fills the configured start input with
`toYMD (today - 364)` and the configured end input with `toYMD today`
(each attempted only when configured, and these are the only fills), so
the established window runs from 364 days before the current date through
the current date.  The `364 ≤ today` bound keeps `Nat` subtraction in the
regime where it agrees with JS date arithmetic, and the start fill is
assumed to succeed so the end fill is reached. -/
theorem setLast12_manual_trailing_window (page : PageOps)
    (cfg : ReportConfig) (today : Nat)
    (hpreset : jsGet? cfg.presetLast12Selector = none ∨
      ∃ sel, jsGet? cfg.presetLast12Selector = some sel ∧
        page.present sel = false)
    (_h364 : 364 ≤ today)
    (hstart : ∀ ss, jsGet? cfg.startInput = some ss →
      page.fillResult ss (toYMD (today - 364)) = .ok ()) :
    (∀ ss, jsGet? cfg.startInput = some ss →
      Action.fill ss (toYMD (today - 364)) ∈ (setLast12Months page cfg today).1) ∧
    (∀ es, jsGet? cfg.endInput = some es →
      Action.fill es (toYMD today) ∈ (setLast12Months page cfg today).1) ∧
    (∀ s v, Action.fill s v ∈ (setLast12Months page cfg today).1 →
      (jsGet? cfg.startInput = some s ∧ v = toYMD (today - 364)) ∨
      (jsGet? cfg.endInput = some s ∧ v = toYMD today)) := by
  have hred : setLast12Months page cfg today = setLast12Fallback page cfg today := by
    rcases hpreset with hp | ⟨sel, hp, hpr⟩
    · simp [setLast12Months, hp]
    · simp [setLast12Months, hp, hpr]
  rw [hred]
  cases hs : jsGet? cfg.startInput with
  | none =>
    have hfb : setLast12Fallback page cfg today = endStep page cfg today [] := by
      simp [setLast12Fallback, hs]
    rw [hfb]
    refine ⟨fun ss hss => absurd hss (by simp), ?_, ?_⟩
    · intro es he; exact endStep_end_mem page cfg today [] es he
    · intro s v hmem
      rcases endStep_fill_inv page cfg today [] s v hmem with h | h
      · exact absurd h (by simp)
      · exact Or.inr h
  | some ss =>
    have hok := hstart ss hs
    have hfb : setLast12Fallback page cfg today =
        endStep page cfg today [Action.fill ss (toYMD (today - 364))] := by
      simp [setLast12Fallback, hs, hok]
    rw [hfb]
    refine ⟨fun ss' hss' => ?_, ?_, ?_⟩
    · have hinj : ss = ss' := by injection hss'
      subst hinj
      exact endStep_sub page cfg today _ _ (List.mem_singleton.mpr rfl)
    · intro es he; exact endStep_end_mem page cfg today _ es he
    · intro s v hmem
      rcases endStep_fill_inv page cfg today _ s v hmem with h | h
      · have hh := List.mem_singleton.mp h
        injection hh with h1 h2
        exact Or.inl ⟨by rw [h1], h2⟩
      · exact Or.inr h

/-- Witness for `setLast12_manual_trailing_window` on a concrete page with
no preset element, both date inputs configured, and succeeding fills. -/
theorem setLast12_manual_trailing_window_witness :
    Action.fill "#start" (toYMD (20000 - 364)) ∈
      (setLast12Months pageInert rptManual 20000).1 ∧
    Action.fill "#end" (toYMD 20000) ∈
      (setLast12Months pageInert rptManual 20000).1 := by
  have h := setLast12_manual_trailing_window pageInert rptManual 20000
    (Or.inl rfl) (by decide) (fun _ _ => rfl)
  exact ⟨h.1 "#start" rfl, h.2.1 "#end" rfl⟩

/-! ### Claims about the Tenant Orchestrator (`runTenant`) -/

/-- **C8 counterexample.** The claim says the tenant's browser context is
closed on every exit path; but when login throws, `runTenant` propagates
the error with the context still open (the source has no `try`/`finally`
around `context.close()`). -/
theorem runTenant_context_leak_cex :
    (runTenant sbLoginFail cfgA ⟨"ua", "pa"⟩ envAB 20000 "ST" []).result =
      .error "login refused" ∧
    (runTenant sbLoginFail cfgA ⟨"ua", "pa"⟩ envAB 20000 "ST" []).opened = true ∧
    (runTenant sbLoginFail cfgA ⟨"ua", "pa"⟩ envAB 20000 "ST" []).closed = false :=
  ⟨rfl, rfl, rfl⟩

/-- **C8 (amended).** Each `runTenant` call opens exactly one isolated
context, and that context is closed exactly when the tenant's processing
completes successfully; on an error exit path (missing base URL, login,
navigation, date-range configuration or export throwing) the error
propagates with the context left open, to be torn down only when the
shared browser closes at the end of the run. -/
theorem runTenant_close_iff_success (sb : SessionBehavior) (cfg : TenantConfig)
    (creds : Credentials) (envv : Env) (today : Nat) (stamp : String) (fs : FS) :
    (runTenant sb cfg creds envv today stamp fs).opened = true ∧
    ((runTenant sb cfg creds envv today stamp fs).closed = true ↔
      (runTenant sb cfg creds envv today stamp fs).result = .ok ()) := by
  unfold runTenant
  cases h1 : jsGet? (envv cfg.baseUrlEnv) with
  | none => simp
  | some baseUrl =>
    cases h2 : sb.loginResult baseUrl creds.user creds.pass with
    | error e => simp [h2]
    | ok u =>
      rcases h3 : runReports sb cfg.id baseUrl (DATA_DIR ++ "/" ++ cfg.id)
          stamp today cfg.reports fs with ⟨res, fs1, rlogs, saved⟩
      cases res <;> simp [h2, h3]

/-- Any path `exportCsv` returns successfully is either the fallback name
`base ++ ".csv"` or the download name `base ++ "__" ++ suggested` with
`".csv"` appended when the suggested name lacks it. -/
lemma exportCsv_ok_shape (page : PageOps) (cfg : ReportConfig) (base : String)
    (fs : FS) (fp : String)
    (h : (exportCsv page cfg base fs).1 = .ok fp) :
    fp = base ++ ".csv" ∨
      ∃ sug, fp = base ++ "__" ++
        (if strEndsWith sug ".csv" then sug else sug ++ ".csv") := by
  cases hdl : page.downloadRace (jsOr cfg.exportButton "text=Export") with
  | some dl =>
    right
    refine ⟨dl.suggestedFilename, ?_⟩
    simp [exportCsv, hdl] at h
    exact h.symm
  | none =>
    cases hf : page.anchors.find? (fun h => strEndsWith h ".csv") with
    | some href =>
      left
      simp [exportCsv, hdl, hf] at h
      exact h.symm
    | none =>
      exfalso
      simp [exportCsv, hdl, hf] at h

/-- Every path saved by the report loop belongs to one of its reports and
has one of the two `exportCsv` shapes over that report's deterministic
base name. -/
lemma runReports_saved_shape (sb : SessionBehavior)
    (tid baseUrl tDir stamp : String) (today : Nat) :
    ∀ (rs : List ReportConfig) (fs : FS),
      ∀ fp ∈ (runReports sb tid baseUrl tDir stamp today rs fs).2.2.2,
        ∃ r ∈ rs,
          fp = tDir ++ "/" ++ (tid ++ "__" ++ r.name ++ "__" ++ stamp) ++ ".csv" ∨
          ∃ sug, fp = tDir ++ "/" ++ (tid ++ "__" ++ r.name ++ "__" ++ stamp) ++
            "__" ++ (if strEndsWith sug ".csv" then sug else sug ++ ".csv") := by
  intro rs
  induction rs with
  | nil => intro fs fp hfp; simp [runReports] at hfp
  | cons r rs ih =>
    intro fs fp hfp
    cases hg : sb.gotoResult (reportUrl baseUrl r) with
    | error e => simp [runReports, hg] at hfp
    | ok u =>
      cases hset : (setLast12Months (sb.reportPage (reportUrl baseUrl r)) r today).2 with
      | some e => simp [runReports, hg, hset] at hfp
      | none =>
        rcases hex : exportCsv (sb.reportPage (reportUrl baseUrl r)) r
            (tDir ++ "/" ++ (tid ++ "__" ++ r.name ++ "__" ++ stamp)) fs
          with ⟨res, fs1, elogs⟩
        cases res with
        | error e => simp [runReports, hg, hset, hex] at hfp
        | ok fp0 =>
          simp only [runReports, hg, hset, hex] at hfp
          rcases List.mem_cons.mp hfp with rfl | hfp2
          · have hok : (exportCsv (sb.reportPage (reportUrl baseUrl r)) r
                (tDir ++ "/" ++ (tid ++ "__" ++ r.name ++ "__" ++ stamp)) fs).1 =
                .ok fp := by rw [hex]
            rcases exportCsv_ok_shape _ _ _ _ _ hok with h | h
            · exact ⟨r, List.mem_cons_self r rs, Or.inl h⟩
            · exact ⟨r, List.mem_cons_self r rs, Or.inr h⟩
          · obtain ⟨r', hr', hsh⟩ := ih fs1 fp hfp2
            exact ⟨r', List.mem_cons_of_mem r hr', hsh⟩

/-- **C4 counterexample.** The claimed universal naming pattern
`<tenantId>__<reportName>__<runTimestamp>__<suggestedOrDefaultName>.csv`
fails on the anchor-fallback path: a concrete run saves
`data/A/A__rep__ST.csv`, which has no fourth `__`-separated component
before `".csv"`. -/
theorem exportArtifact_name_cex :
    (runTenant sbAnchor cfgA ⟨"ua", "pa"⟩ envAB 20000 "ST" []).saved =
      ["data/A/A__rep__ST.csv"] ∧
    ¬ ∃ tail, "data/A/A__rep__ST.csv" =
        "data/A/A__rep__ST" ++ "__" ++ tail ++ ".csv" := by
  refine ⟨rfl, ?_⟩
  rintro ⟨tail, h⟩
  have hl := congrArg String.length h
  simp only [String.length_append] at hl
  rw [show ("data/A/A__rep__ST.csv" : String).length = 21 from rfl,
    show ("data/A/A__rep__ST" : String).length = 17 from rfl,
    show ("__" : String).length = 2 from rfl,
    show (".csv" : String).length = 4 from rfl] at hl
  omega

/-- **C4 (amended).** Every file saved by `runTenant` for a (tenant,
report) pair lies under that tenant's output directory
`DATA_DIR/<tenantId>` and starts with the deterministic stem
`<tenantId>__<reportName>__<runTimestamp>`; in the download-event path the
name is the stem followed by `__<suggestedName>` (with `".csv"` appended
when the suggested name lacks it), while in the anchor-fallback path it is
exactly the stem followed by `".csv"`, with no fourth component. -/
theorem runTenant_saved_path_shape (sb : SessionBehavior) (cfg : TenantConfig)
    (creds : Credentials) (envv : Env) (today : Nat) (stamp : String) (fs : FS) :
    ∀ fp ∈ (runTenant sb cfg creds envv today stamp fs).saved,
      ∃ r ∈ cfg.reports,
        fp = DATA_DIR ++ "/" ++ cfg.id ++ "/" ++
            (cfg.id ++ "__" ++ r.name ++ "__" ++ stamp) ++ ".csv" ∨
        ∃ sug, fp = DATA_DIR ++ "/" ++ cfg.id ++ "/" ++
            (cfg.id ++ "__" ++ r.name ++ "__" ++ stamp) ++ "__" ++
            (if strEndsWith sug ".csv" then sug else sug ++ ".csv") := by
  intro fp hfp
  unfold runTenant at hfp
  cases h1 : jsGet? (envv cfg.baseUrlEnv) with
  | none => simp [h1] at hfp
  | some baseUrl =>
    cases h2 : sb.loginResult baseUrl creds.user creds.pass with
    | error e => simp [h1, h2] at hfp
    | ok u =>
      rcases h3 : runReports sb cfg.id baseUrl (DATA_DIR ++ "/" ++ cfg.id)
          stamp today cfg.reports fs with ⟨res, fs1, rlogs, saved⟩
      have hsub : fp ∈ saved := by
        cases res <;> simp [h1, h2, h3] at hfp <;> exact hfp
      exact runReports_saved_shape sb cfg.id baseUrl (DATA_DIR ++ "/" ++ cfg.id)
        stamp today cfg.reports fs fp (by rw [h3]; exact hsub)

/-- Witness for `runTenant_saved_path_shape` on a concrete run whose
export succeeds through the download-event path. -/
theorem runTenant_saved_path_shape_witness :
    ∃ r ∈ cfgA.reports,
      "data/A/A__rep__ST__stats.csv" =
        DATA_DIR ++ "/" ++ cfgA.id ++ "/" ++
          (cfgA.id ++ "__" ++ r.name ++ "__" ++ "ST") ++ ".csv" ∨
      ∃ sug, "data/A/A__rep__ST__stats.csv" =
        DATA_DIR ++ "/" ++ cfgA.id ++ "/" ++
          (cfgA.id ++ "__" ++ r.name ++ "__" ++ "ST") ++ "__" ++
          (if strEndsWith sug ".csv" then sug else sug ++ ".csv") := by
  refine runTenant_saved_path_shape sbGood cfgA ⟨"ua", "pa"⟩ envAB 20000 "ST" []
    "data/A/A__rep__ST__stats.csv" ?_
  rw [show (runTenant sbGood cfgA ⟨"ua", "pa"⟩ envAB 20000 "ST" []).saved =
    ["data/A/A__rep__ST__stats.csv"] from rfl]
  exact List.mem_singleton.mpr rfl

/-! ### Claims about the Run Coordinator (`main`) -/

/-- The outcome component of `exportCsv` does not depend on the filesystem
passed in. -/
lemma exportCsv_fst_fs_indep (page : PageOps) (cfg : ReportConfig)
    (base : String) (fs fs' : FS) :
    (exportCsv page cfg base fs).1 = (exportCsv page cfg base fs').1 := by
  cases hdl : page.downloadRace (jsOr cfg.exportButton "text=Export") with
  | some dl => simp [exportCsv, hdl]
  | none =>
    cases hf : page.anchors.find? (fun h => strEndsWith h ".csv") <;>
      simp [exportCsv, hdl, hf]

/-- The outcome component of the report loop does not depend on the
filesystem passed in. -/
lemma runReports_fst_fs_indep (sb : SessionBehavior)
    (tid baseUrl tDir stamp : String) (today : Nat) :
    ∀ (rs : List ReportConfig) (fs fs' : FS),
      (runReports sb tid baseUrl tDir stamp today rs fs).1 =
        (runReports sb tid baseUrl tDir stamp today rs fs').1 := by
  intro rs
  induction rs with
  | nil => intro fs fs'; rfl
  | cons r rs ih =>
    intro fs fs'
    cases hg : sb.gotoResult (reportUrl baseUrl r) with
    | error e => simp [runReports, hg]
    | ok u =>
      cases hset : (setLast12Months (sb.reportPage (reportUrl baseUrl r)) r today).2 with
      | some e => simp [runReports, hg, hset]
      | none =>
        rcases hex : exportCsv (sb.reportPage (reportUrl baseUrl r)) r
            (tDir ++ "/" ++ (tid ++ "__" ++ r.name ++ "__" ++ stamp)) fs
          with ⟨res, fs1, elogs⟩
        rcases hex' : exportCsv (sb.reportPage (reportUrl baseUrl r)) r
            (tDir ++ "/" ++ (tid ++ "__" ++ r.name ++ "__" ++ stamp)) fs'
          with ⟨res', fs1', elogs'⟩
        have hres : res = res' := by
          have h := exportCsv_fst_fs_indep (sb.reportPage (reportUrl baseUrl r)) r
            (tDir ++ "/" ++ (tid ++ "__" ++ r.name ++ "__" ++ stamp)) fs fs'
          rw [hex, hex'] at h
          exact h
        subst hres
        cases res with
        | error e => simp [runReports, hg, hset, hex, hex']
        | ok fp0 =>
          simp only [runReports, hg, hset, hex, hex']
          exact ih fs1 fs1'

/-- The outcome of `runTenant` does not depend on the filesystem passed
in. -/
lemma runTenant_result_fs_indep (sb : SessionBehavior) (cfg : TenantConfig)
    (creds : Credentials) (envv : Env) (today : Nat) (stamp : String)
    (fs fs' : FS) :
    (runTenant sb cfg creds envv today stamp fs).result =
      (runTenant sb cfg creds envv today stamp fs').result := by
  unfold runTenant
  cases h1 : jsGet? (envv cfg.baseUrlEnv) with
  | none => rfl
  | some baseUrl =>
    cases h2 : sb.loginResult baseUrl creds.user creds.pass with
    | error e => simp [h2]
    | ok u =>
      rcases h3 : runReports sb cfg.id baseUrl (DATA_DIR ++ "/" ++ cfg.id)
          stamp today cfg.reports fs with ⟨res, fs1, rlogs, saved⟩
      rcases h3' : runReports sb cfg.id baseUrl (DATA_DIR ++ "/" ++ cfg.id)
          stamp today cfg.reports fs' with ⟨res', fs1', rlogs', saved'⟩
      have hres : res = res' := by
        have h := runReports_fst_fs_indep sb cfg.id baseUrl
          (DATA_DIR ++ "/" ++ cfg.id) stamp today cfg.reports fs fs'
        rw [h3, h3'] at h
        exact h
      subst hres
      cases res <;> simp [h2, h3, h3']

/-- The outcome of one tenant's step in `main`'s loop does not depend on
the filesystem passed in. -/
lemma tenantStep_result_fs_indep (sb : String → SessionBehavior) (envv : Env)
    (today : Nat) (stamp : String) (fs fs' : FS) (cfg : TenantConfig) :
    (tenantStep sb envv today stamp fs cfg).result =
      (tenantStep sb envv today stamp fs' cfg).result := by
  unfold tenantStep
  cases hc : getCredsForTenant envv cfg.id with
  | error e => simp [hc]
  | ok creds =>
    simp only [hc]
    exact runTenant_result_fs_indep (sb cfg.id) cfg creds envv today stamp fs fs'

/-- `main`'s loop enters its body for every configured tenant, in order. -/
lemma mainLoop_attempted (sb : String → SessionBehavior) (envv : Env)
    (today : Nat) (stamp : String) :
    ∀ (cfgs : List TenantConfig) (fs : FS),
      (mainLoop sb envv today stamp cfgs fs).2.2 = cfgs.map (fun c => c.id) := by
  intro cfgs
  induction cfgs with
  | nil => intro fs; rfl
  | cons c cs ih =>
    intro fs
    simp only [mainLoop, List.map_cons]
    rw [ih]

/-- When a tenant's step errors, `main`'s loop logs the error line carrying
that tenant's id and the message. -/
lemma mainLoop_error_logged (sb : String → SessionBehavior) (envv : Env)
    (today : Nat) (stamp : String) :
    ∀ (cfgs : List TenantConfig) (fs : FS) (cfg : TenantConfig) (e : String),
      cfg ∈ cfgs →
      (tenantStep sb envv today stamp fs cfg).result = .error e →
      errorLine cfg.id e ∈ (mainLoop sb envv today stamp cfgs fs).2.1 := by
  intro cfgs
  induction cfgs with
  | nil => intro fs cfg e hmem; exact absurd hmem (List.not_mem_nil _)
  | cons c cs ih =>
    intro fs cfg e hmem hres
    rcases List.mem_cons.mp hmem with rfl | hmem2
    · simp only [mainLoop, hres]
      exact List.mem_append_left _
        (List.mem_append_right _ (List.mem_singleton.mpr rfl))
    · have hres' : (tenantStep sb envv today stamp
          (tenantStep sb envv today stamp fs c).fs cfg).result = .error e :=
        (tenantStep_result_fs_indep sb envv today stamp _ fs cfg).trans hres
      have hrec := ih (tenantStep sb envv today stamp fs c).fs cfg e hmem2 hres'
      simp only [mainLoop]
      exact List.mem_append_right _ hrec

/-- **C1.** `main`'s loop attempts every resolved tenant in configured
order, and when processing a tenant raises an error at any point
(credential resolution inside the `try`, or anything `runTenant` does:
login, navigation, date-range configuration or export capture), the error
is caught and a log line carrying that tenant's id and the error message
is emitted, while all remaining tenants are still attempted. -/
theorem mainLoop_failure_isolation (sb : String → SessionBehavior)
    (envv : Env) (today : Nat) (stamp : String) (cfgs : List TenantConfig)
    (fs : FS) :
    (mainLoop sb envv today stamp cfgs fs).2.2 = cfgs.map (fun c => c.id) ∧
    ∀ cfg ∈ cfgs, ∀ e,
      (tenantStep sb envv today stamp fs cfg).result = .error e →
      errorLine cfg.id e ∈ (mainLoop sb envv today stamp cfgs fs).2.1 :=
  ⟨mainLoop_attempted sb envv today stamp cfgs fs,
   fun cfg hmem e hres =>
     mainLoop_error_logged sb envv today stamp cfgs fs cfg e hmem hres⟩

/-- Witness for `mainLoop_failure_isolation`: tenant `A` fails at login,
tenant `B` is still attempted, and the error line for `A` is logged. -/
theorem mainLoop_failure_isolation_witness :
    (mainLoop sbAFails envAB 20000 "ST" [cfgA, cfgB] []).2.2 = ["A", "B"] ∧
    errorLine "A" "login refused" ∈
      (mainLoop sbAFails envAB 20000 "ST" [cfgA, cfgB] []).2.1 := by
  have h := mainLoop_failure_isolation sbAFails envAB 20000 "ST" [cfgA, cfgB] []
  exact ⟨h.1, h.2 cfgA (List.mem_cons_self cfgA [cfgB]) "login refused" rfl⟩

/-- **C9 counterexample.** With tenant `A`'s username unset, the claim
says the whole run fails with that `ConfigError`; but the error is caught
at the per-tenant boundary: `A`'s error line is logged, tenant `B` is
still attempted and its step succeeds. -/
theorem credsMissing_run_continues_cex :
    (mainLoop sbAllGood envNoUserA 20000 "ST" [cfgA, cfgB] []).2.2 =
      ["A", "B"] ∧
    errorLine "A" (missingCredsMsg "A") ∈
      (mainLoop sbAllGood envNoUserA 20000 "ST" [cfgA, cfgB] []).2.1 ∧
    (tenantStep sbAllGood envNoUserA 20000 "ST" [] cfgB).result = .ok () := by
  refine ⟨rfl, ?_, rfl⟩
  rw [show (mainLoop sbAllGood envNoUserA 20000 "ST" [cfgA, cfgB] []).2.1 =
    errorLine "A" (missingCredsMsg "A") ::
      (mainLoop sbAllGood envNoUserA 20000 "ST" [cfgB] []).2.1 from rfl]
  exact List.mem_cons_self _ _

/-- **C9 (amended).** When `RSI_USER_<id>` or `RSI_PASS_<id>` is missing
(or empty) for a resolved tenant, the `ConfigError` is raised before any
browsing begins for that tenant — no session is opened, nothing is logged
or written for it — but instead of failing the whole run the error is
caught at the per-tenant boundary: its error line is logged and every
tenant in the list (including the remaining ones) is still attempted. -/
theorem credsMissing_isolated (sb : String → SessionBehavior) (envv : Env)
    (today : Nat) (stamp : String) (fs : FS) (cfg : TenantConfig)
    (hmiss : jsGet? (envv ("RSI_USER_" ++ cfg.id)) = none ∨
      jsGet? (envv ("RSI_PASS_" ++ cfg.id)) = none) :
    tenantStep sb envv today stamp fs cfg =
      { result := .error (missingCredsMsg cfg.id), fs := fs, logs := [],
        opened := false, closed := false, saved := [] } ∧
    ∀ (pre post : List TenantConfig) (fs0 : FS),
      errorLine cfg.id (missingCredsMsg cfg.id) ∈
        (mainLoop sb envv today stamp (pre ++ cfg :: post) fs0).2.1 ∧
      (mainLoop sb envv today stamp (pre ++ cfg :: post) fs0).2.2 =
        (pre ++ cfg :: post).map (fun c => c.id) := by
  have hcred : getCredsForTenant envv cfg.id = .error (missingCredsMsg cfg.id) := by
    rcases hmiss with h | h
    · cases h2 : jsGet? (envv ("RSI_PASS_" ++ cfg.id)) <;>
        simp [getCredsForTenant, h, h2]
    · cases h1 : jsGet? (envv ("RSI_USER_" ++ cfg.id)) <;>
        simp [getCredsForTenant, h1, h]
  refine ⟨by simp [tenantStep, hcred], fun pre post fs0 => ⟨?_, ?_⟩⟩
  · exact mainLoop_error_logged sb envv today stamp (pre ++ cfg :: post) fs0
      cfg (missingCredsMsg cfg.id)
      (List.mem_append_right pre (List.mem_cons_self cfg post))
      (by simp [tenantStep, hcred])
  · exact mainLoop_attempted sb envv today stamp (pre ++ cfg :: post) fs0

/-- Witness for `credsMissing_isolated` at a concrete environment with
tenant `A`'s username unset. -/
theorem credsMissing_isolated_witness :
    tenantStep sbAllGood envNoUserA 20000 "ST" [] cfgA =
      { result := .error (missingCredsMsg "A"), fs := [], logs := [],
        opened := false, closed := false, saved := [] } ∧
    errorLine "A" (missingCredsMsg "A") ∈
      (mainLoop sbAllGood envNoUserA 20000 "ST" ([] ++ cfgA :: [cfgB]) []).2.1 ∧
    (mainLoop sbAllGood envNoUserA 20000 "ST" ([] ++ cfgA :: [cfgB]) []).2.2 =
      (([] : List TenantConfig) ++ cfgA :: [cfgB]).map (fun c => c.id) := by
  have h := credsMissing_isolated sbAllGood envNoUserA 20000 "ST" [] cfgA
    (Or.inl rfl)
  exact ⟨h.1, (h.2 [] [cfgB] []).1, (h.2 [] [cfgB] []).2⟩

/-- Scanning `front ++ ["--tenant"]` for the flag finds it at the very
end when it does not occur earlier. -/
lemma findIdx?_append_last (front : List String)
    (h : "--tenant" ∉ front) :
    ∀ i, (front ++ ["--tenant"]).findIdx? (· == "--tenant") i =
      some (i + front.length) := by
  induction front with
  | nil => intro i; simp [List.findIdx?]
  | cons x xs ih =>
    intro i
    have hx : (x == "--tenant") = false := by
      rw [beq_eq_false_iff_ne]
      intro he
      exact h (by rw [he]; exact List.mem_cons_self _ _)
    have hxs : "--tenant" ∉ xs := fun hm => h (List.mem_cons_of_mem _ hm)
    rw [List.cons_append]
    rw [show (x :: (xs ++ ["--tenant"])).findIdx? (· == "--tenant") i =
      if x == "--tenant" then some i
      else (xs ++ ["--tenant"]).findIdx? (· == "--tenant") (i + 1) from rfl]
    rw [hx, if_neg (by simp), ih hxs (i + 1)]
    congr 1
    simp [List.length_cons]
    omega

/-- When `--tenant` (first occurrence) is the last argument, `args[tIdx+1]`
is out of bounds, so the single-tenant override resolves to nothing. -/
lemma singleTenantArg_last (front : List String) (h : "--tenant" ∉ front) :
    singleTenantArg (front ++ ["--tenant"]) = none := by
  unfold singleTenantArg
  rw [findIdx?_append_last front h 0]
  show (front ++ ["--tenant"]).get? (0 + front.length + 1) = none
  rw [List.get?_eq_none]
  simp [List.length_append]

/-- **C10.** When `--tenant` appears as the last command-line argument
with nothing after it (and no earlier occurrence), tenant resolution
behaves exactly as with no flag: the id list is the `TENANTS` environment
variable split on commas, each entry trimmed, empty entries dropped, in
order. -/
theorem tenant_flag_last_falls_back_to_env (args front : List String)
    (envv : Env) (hargs : args = front ++ ["--tenant"])
    (hfront : "--tenant" ∉ front) :
    resolveTenantIds args envv =
      ((strSplitComma ((envv "TENANTS").getD "")).map strTrim).filter
        (fun s => s ≠ "") ∧
    resolveTenantIds args envv = resolveTenantIds [] envv := by
  subst hargs
  have h1 : singleTenantArg (front ++ ["--tenant"]) = none :=
    singleTenantArg_last front hfront
  constructor
  · show getTenantIds (singleTenantArg (front ++ ["--tenant"])) envv = _
    rw [h1]
    rfl
  · show getTenantIds (singleTenantArg (front ++ ["--tenant"])) envv =
      getTenantIds (singleTenantArg []) envv
    rw [h1, show singleTenantArg [] = none from rfl]

/-- Witness for `tenant_flag_last_falls_back_to_env`: a bare trailing
`--tenant` flag with a messy `TENANTS` value. -/
theorem tenant_flag_last_falls_back_to_env_witness :
    resolveTenantIds ["--tenant"] envT =
      ((strSplitComma ((envT "TENANTS").getD "")).map strTrim).filter
        (fun s => s ≠ "") ∧
    resolveTenantIds ["--tenant"] envT = resolveTenantIds [] envT ∧
    resolveTenantIds ["--tenant"] envT = ["a", "b", "c"] := by
  have h := tenant_flag_last_falls_back_to_env ["--tenant"] [] envT rfl
    (by simp)
  exact ⟨h.1, h.2, by decide⟩

end RsiScrape
